import Mathlib

/-!
Verification of the notedok web service note-storage adapter
(`app/s3connect.go`, `app/storageapi.go`, `app/validation.go`).

The S3 object store is the external collaborator; it is modelled as an
association list from object keys to stored objects, together with a
counter that mints fresh, pairwise-distinct entity tags (the store's
opaque fingerprints).  Each Go function of `s3connect.go` is translated
into a pure Lean function over this store state.  Transport failures of
individual S3 calls are injected through explicit boolean `fault`
parameters (a fault makes the corresponding call fail with an
unrecognized error, which the Go code maps to `ErrServiceUnavailable`).
Every function also returns the list of store operations it attempted,
in order, so that protocol-level claims (which calls are made, with
which keys and preconditions) can be stated directly.
-/

namespace NotedOk

/-- The five domain errors of `s3connect.go` (`errors.New` values). -/
inductive AppError where
  | ErrServiceUnavailable
  | ErrInvalidArgument
  | ErrNotFound
  | ErrNotModified
  | ErrAlreadyExists
deriving DecidableEq, Repr

/-- An error coming back from an S3 call: either a recognized API error
code (as matched by `smithy.APIError.ErrorCode()` in the Go code) or an
unrecognized/transport failure. -/
inductive S3Err where
  | api (code : String)
  | transport
deriving DecidableEq, Repr

/-- A stored S3 object: its content, the entity tag the store assigned
when it was written, and a last-modified stamp. -/
structure S3Object where
  content : String
  etag : String
  lastModified : Nat
deriving DecidableEq, Repr

/-- The S3 store state: objects of the single configured bucket, keyed
by object key, plus a counter used to mint fresh entity tags. -/
structure S3State where
  objects : List (String × S3Object)
  counter : Nat
deriving DecidableEq, Repr

/-- A store call attempted by the adapter, recorded in order. -/
inductive StoreOp where
  | listOp (pre : String) (maxKeys : Nat) (token : Option String)
  | getOp (key : String) (ifNoneMatch : Option String)
  | putOp (key contentType content : String) (ifNoneMatch : Bool)
  | copyOp (copySource destKey : String)
  | deleteOp (key : String)
deriving DecidableEq, Repr

/-- The fresh entity tag minted for the `n`-th write: an opaque string,
injective in `n` (the model's stand-in for the store's opaque
fingerprints; distinct writes receive distinct tags). -/
def etagFor (n : Nat) : String :=
  ⟨List.replicate (n + 1) 'e'⟩

/-- First-match lookup in the store's association list. -/
def lookupKey (objs : List (String × S3Object)) (key : String) : Option S3Object :=
  match objs with
  | [] => none
  | (k, o) :: rest => if k = key then some o else lookupKey rest key

/-- Replace-or-append insertion into the store's association list. -/
def insertKey (objs : List (String × S3Object)) (key : String) (o : S3Object) :
    List (String × S3Object) :=
  match objs with
  | [] => [(key, o)]
  | (k, o₀) :: rest =>
    if k = key then (key, o) :: rest else (k, o₀) :: insertKey rest key o

/-- Removal of a key from the store's association list. -/
def removeKey (objs : List (String × S3Object)) (key : String) :
    List (String × S3Object) :=
  objs.filter (fun e => !(e.1 = key))

/-- Predicate: `p` is a character-level prefix of `s` (Go
`strings.HasPrefix`; for
whole strings, byte-level and character-level prefixes of UTF-8 agree). -/
def strStartsWith (s p : String) : Bool :=
  p.data.isPrefixOf s.data

/-- Predicate: `p` is a character-level suffix of `s` (Go
`strings.HasSuffix`). -/
def strEndsWith (s p : String) : Bool :=
  p.data.isSuffixOf s.data

/-- Go `strings.CutPrefix(s, p)` (the cut string; the Go caller ignores
the boolean): strips `p` when it is a prefix, otherwise returns `s`. -/
def cutPre (s p : String) : String :=
  if strStartsWith s p then ⟨s.data.drop p.data.length⟩ else s

/-- Translation of `s3connect.go` `isSupportedFileType`: `.txt` or `.md`
suffix. -/
def isSupportedFileType (fileName : String) : Bool :=
  strEndsWith fileName ".txt" || strEndsWith fileName ".md"

/-- Translation of `s3connect.go` `isMarkdown`. -/
def isMarkdown (fileName : String) : Bool :=
  strEndsWith fileName ".md"

/-- Translation of `validation.go` `isFileNameValid`: byte length at most 200, a
recognized suffix with a nonempty stem, and no path separator.  (Go
`len` is the byte length, `String.utf8ByteSize` here.) -/
def isFileNameValid (fileName : String) : Bool :=
  decide (fileName.utf8ByteSize ≤ 200) &&
    ((strEndsWith fileName ".txt" && decide (4 < fileName.utf8ByteSize)) ||
      (strEndsWith fileName ".md" && decide (3 < fileName.utf8ByteSize))) &&
    !(fileName.data.contains '/')

/-- Characters Go's `url.QueryEscape` leaves unescaped: ASCII
alphanumerics and `-._~`. -/
def isUnreservedQueryChar (c : Char) : Bool :=
  c.isAlphanum || c = '-' || c = '_' || c = '.' || c = '~'

/-- Uppercase hexadecimal digit for `n < 16`. -/
def hexDigitChar (n : Nat) : Char :=
  if n < 10 then Char.ofNat ('0'.toNat + n) else Char.ofNat ('A'.toNat + (n - 10))

/-- Escaping of one character under Go's `url.QueryEscape`: unreserved
characters are kept, space becomes `+`, anything else becomes `%XY`
(uppercase hex).  Character-level model, faithful to Go's byte-level
escaping on ASCII input (non-ASCII characters are escaped in both
models, merely spelled differently, so "escaping leaves the string
unchanged" coincides). -/
def queryEscapeChar (c : Char) : List Char :=
  if isUnreservedQueryChar c then [c]
  else if c = ' ' then ['+']
  else ['%', hexDigitChar (c.toNat / 16 % 16), hexDigitChar (c.toNat % 16)]

/-- Go's `url.QueryEscape`. -/
def queryEscape (s : String) : String :=
  ⟨(s.data.map queryEscapeChar).flatten⟩

/-! ### The store collaborator (§6 of the spec): S3 call semantics -/

/-- Model of `PutObject`.  With `ifNoneMatch` (the Go code's `IfNoneMatch: "*"`)
the put carries the store-side "no existing entity tag" precondition and
fails with code `PreconditionFailed` exactly when the key is occupied;
otherwise it (re)writes the key and returns the fresh entity tag. -/
def s3PutObject (st : S3State) (key content : String) (ifNoneMatch : Bool)
    (fault : Bool) : Except S3Err (S3State × String) :=
  if fault then .error .transport
  else if ifNoneMatch && (lookupKey st.objects key).isSome then
    .error (.api "PreconditionFailed")
  else
    .ok (⟨insertKey st.objects key ⟨content, etagFor st.counter, st.counter⟩,
          st.counter + 1⟩,
         etagFor st.counter)

/-- Model of `GetObject`.  Fails with `NoSuchKey` on a missing key; with
`IfNoneMatch` set to the current entity tag it fails with `NotModified`;
otherwise returns content and current entity tag. -/
def s3GetObject (st : S3State) (key : String) (ifNoneMatch : Option String)
    (fault : Bool) : Except S3Err (String × String) :=
  if fault then .error .transport
  else
    match lookupKey st.objects key with
    | none => .error (.api "NoSuchKey")
    | some o =>
      match ifNoneMatch with
      | some e => if e = o.etag then .error (.api "NotModified") else .ok (o.content, o.etag)
      | none => .ok (o.content, o.etag)

/-- Model of `CopyObject`.  Fails with `NoSuchKey` when the source key is absent;
otherwise writes the source's content at the destination key and returns
the entity tag of the newly written destination object. -/
def s3CopyObject (st : S3State) (srcKey destKey : String) (fault : Bool) :
    Except S3Err (S3State × String) :=
  if fault then .error .transport
  else
    match lookupKey st.objects srcKey with
    | none => .error (.api "NoSuchKey")
    | some o =>
      .ok (⟨insertKey st.objects destKey ⟨o.content, etagFor st.counter, st.counter⟩,
            st.counter + 1⟩,
           etagFor st.counter)

/-- Model of `DeleteObject`.  The spec (§6) allows the store either to treat a
missing key as success or to report a distinguishable `NoSuchKey`; the
flag `missingReported` selects between the two allowed behaviors. -/
def s3DeleteObject (st : S3State) (key : String) (missingReported fault : Bool) :
    Except S3Err S3State :=
  if fault then .error .transport
  else if missingReported && (lookupKey st.objects key).isNone then
    .error (.api "NoSuchKey")
  else .ok ⟨removeKey st.objects key, st.counter⟩

/-- The objects whose keys carry the requested key prefix, in store
order (the raw material of `ListObjectsV2`). -/
def s3MatchingObjects (st : S3State) (pre : String) : List (String × S3Object) :=
  st.objects.filter (fun e => strStartsWith e.1 pre)

/-- Response shape of `ListObjectsV2`. -/
structure S3ListOutput where
  contents : List (String × S3Object)
  isTruncated : Bool
  nextContinuationToken : Option String
deriving DecidableEq, Repr

/-- Model of `ListObjectsV2`.  A malformed continuation token fails with code
`InvalidArgument`; a well-formed token selects the start position, and
the response carries at most `maxKeys` raw entries plus the truncation
flag and, when truncated, a continuation token for the next page. -/
def s3ListObjectsV2 (st : S3State) (pre : String) (maxKeys : Nat)
    (token : Option String) (fault : Bool) : Except S3Err S3ListOutput :=
  if fault then .error .transport
  else
    match (match token with | none => some 0 | some t => t.toNat?) with
    | none => .error (.api "InvalidArgument")
    | some start =>
      let remaining := (s3MatchingObjects st pre).drop start
      .ok ⟨remaining.take maxKeys,
           decide (maxKeys < remaining.length),
           if maxKeys < remaining.length then some (toString (start + maxKeys)) else none⟩

/-! ### The adapter (`s3connect.go`) -/

structure FileData where
  FileName : String
  LastModified : Nat
  ETag : String
deriving DecidableEq, Repr

structure ListFilesResult where
  Files : List FileData
  HasMore : Bool
  NextContinuationToken : String
deriving DecidableEq, Repr

structure GetFileContentResult where
  Content : String
  ETag : String
deriving DecidableEq, Repr

structure SaveFileContentResult where
  ETag : String
deriving DecidableEq, Repr

structure RenameFileResult where
  ETag : String
deriving DecidableEq, Repr

/-- Translation of `s3connect.go` `listFiles`: one `ListObjectsV2` fetch of at most
`pageSize` raw entries, then the supported-suffix filter and the
prefix-stripping of each surviving key; `HasMore` is the store's
truncation flag, passed through. -/
def listFiles (st : S3State) (bucket pre : String) (pageSize : Nat)
    (continuationToken : String) (fault : Bool) :
    Except AppError ListFilesResult × List StoreOp :=
  let token := if continuationToken = "" then none else some continuationToken
  let trace := [StoreOp.listOp pre pageSize token]
  match s3ListObjectsV2 st pre pageSize token fault with
  | .error (.api code) =>
    (if code = "InvalidArgument" then .error .ErrInvalidArgument
     else .error .ErrServiceUnavailable, trace)
  | .error .transport => (.error .ErrServiceUnavailable, trace)
  | .ok out =>
    (.ok ⟨(out.contents.filter (fun e => isSupportedFileType e.1)).map
            (fun e => ⟨cutPre e.1 pre, e.2.lastModified, e.2.etag⟩),
          out.isTruncated,
          out.nextContinuationToken.getD ""⟩,
     trace)

/-- Translation of `s3connect.go` `getFileContent`: conditional get at key
`pre ++ fileName`; the `IfNoneMatch` header is sent only for a non-empty
caller-supplied etag; `NoSuchKey` maps to `ErrNotFound`, `NotModified`
to `ErrNotModified`, anything else to `ErrServiceUnavailable`. -/
def getFileContent (st : S3State) (bucket pre fileName etag : String)
    (fault : Bool) : Except AppError GetFileContentResult × List StoreOp :=
  let key := pre ++ fileName
  let ifNoneMatch := if etag = "" then none else some etag
  let trace := [StoreOp.getOp key ifNoneMatch]
  match s3GetObject st key ifNoneMatch fault with
  | .error (.api code) =>
    (if code = "NoSuchKey" then .error .ErrNotFound
     else if code = "NotModified" then .error .ErrNotModified
     else .error .ErrServiceUnavailable, trace)
  | .error .transport => (.error .ErrServiceUnavailable, trace)
  | .ok (content, et) => (.ok ⟨content, et⟩, trace)

/-- The content type `saveFileContent` declares for a file name. -/
def contentTypeFor (fileName : String) : String :=
  if isMarkdown fileName then "text/markdown; charset=UTF-8" else "text/plain"

/-- Translation of `s3connect.go` `saveFileContent`: put at key `pre ++ fileName`; with
`overwrite = false` the put carries `IfNoneMatch: "*"`, and the store's
`PreconditionFailed` maps to `ErrAlreadyExists`; any other failure maps
to `ErrServiceUnavailable`. -/
def saveFileContent (st : S3State) (bucket pre fileName content : String)
    (overwrite : Bool) (fault : Bool) :
    Except AppError SaveFileContentResult × S3State × List StoreOp :=
  let key := pre ++ fileName
  let trace := [StoreOp.putOp key (contentTypeFor fileName) content (!overwrite)]
  match s3PutObject st key content (!overwrite) fault with
  | .error (.api code) =>
    (if code = "PreconditionFailed" then .error .ErrAlreadyExists
     else .error .ErrServiceUnavailable, st, trace)
  | .error .transport => (.error .ErrServiceUnavailable, st, trace)
  | .ok (st', et) => (.ok ⟨et⟩, st', trace)

/-- The `CopySource` string `renameFile` builds for the copy step:
`bucket + "/" + prefix + url.QueryEscape(fileName)`. -/
def renameCopySource (bucket pre fileName : String) : String :=
  bucket ++ "/" ++ pre ++ queryEscape fileName

/-- The object key the copy step's source name denotes (the part of
`renameCopySource` after `bucket + "/"`). -/
def renameCopySourceKey (pre fileName : String) : String :=
  pre ++ queryEscape fileName

/-- The key `renameFile` deletes in its final step: `prefix + fileName`,
with no escaping. -/
def renameDeleteKey (pre fileName : String) : String :=
  pre ++ fileName

/-- Translation of `s3connect.go` `renameFile`: (1) create-only empty put at the target
key via `saveFileContent` (its error returned as is); (2) `CopyObject`
from `renameCopySource` onto the target key, `NoSuchKey` mapping to
`ErrNotFound`; (3) `DeleteObject` of `renameDeleteKey`, any failure
mapping to `ErrServiceUnavailable`.  On full success the result carries
the entity tag produced by the copy step. -/
def renameFile (st : S3State) (bucket pre fileName newFileName : String)
    (faultPut faultCopy faultDelete : Bool) :
    Except AppError RenameFileResult × S3State × List StoreOp :=
  match saveFileContent st bucket pre newFileName "" false faultPut with
  | (.error e, st', tr) => (.error e, st', tr)
  | (.ok _, st₁, tr₁) =>
    let newKey := pre ++ newFileName
    let tr₂ := tr₁ ++ [StoreOp.copyOp (renameCopySource bucket pre fileName) newKey]
    match s3CopyObject st₁ (renameCopySourceKey pre fileName) newKey faultCopy with
    | .error (.api code) =>
      (if code = "NoSuchKey" then .error .ErrNotFound
       else .error .ErrServiceUnavailable, st₁, tr₂)
    | .error .transport => (.error .ErrServiceUnavailable, st₁, tr₂)
    | .ok (st₂, et) =>
      let tr₃ := tr₂ ++ [StoreOp.deleteOp (renameDeleteKey pre fileName)]
      match s3DeleteObject st₂ (renameDeleteKey pre fileName) false faultDelete with
      | .error _ => (.error .ErrServiceUnavailable, st₂, tr₃)
      | .ok st₃ => (.ok ⟨et⟩, st₃, tr₃)

/-- Translation of `s3connect.go` `deleteFile`: delete at key `pre ++ fileName`; a
`NoSuchKey` report from the store is swallowed into success; any other
failure maps to `ErrServiceUnavailable`. -/
def deleteFile (st : S3State) (bucket pre fileName : String)
    (missingReported fault : Bool) :
    Except AppError Unit × S3State × List StoreOp :=
  let key := pre ++ fileName
  let trace := [StoreOp.deleteOp key]
  match s3DeleteObject st key missingReported fault with
  | .error (.api code) =>
    if code = "NoSuchKey" then (.ok (), st, trace)
    else (.error .ErrServiceUnavailable, st, trace)
  | .error .transport => (.error .ErrServiceUnavailable, st, trace)
  | .ok st' => (.ok (), st', trace)

/-! ### The handler pack loop (`storageapi.go` `handleGetFiles`) -/

structure FileDataOut where
  FileName : String
  LastModified : Nat
  ETag : String
deriving DecidableEq, Repr

structure GetFilesDataOut where
  Files : List FileDataOut
  HasMore : Bool
  NextContinuationToken : String
deriving DecidableEq, Repr

/-- Translation of `storageapi.go` `handleGetFiles`, result-packing section: keep only
records whose file name passes `isFileNameValid`, pass `HasMore`
through, and query-escape the continuation token for the response. -/
def packGetFilesResult (r : ListFilesResult) : GetFilesDataOut :=
  ⟨(r.Files.filter (fun f => isFileNameValid f.FileName)).map
      (fun f => ⟨f.FileName, f.LastModified, f.ETag⟩),
   r.HasMore,
   queryEscape r.NextContinuationToken⟩

/-! ### Helper lemmas about the model -/

theorem etagFor_succ_ne (n : Nat) : etagFor (n + 1) ≠ etagFor n := by
  intro h
  have hd : (etagFor (n + 1)).data.length = (etagFor n).data.length := by rw [h]
  simp [etagFor] at hd

theorem lookupKey_insertKey_self (objs : List (String × S3Object)) (key : String)
    (o : S3Object) : lookupKey (insertKey objs key o) key = some o := by
  induction objs with
  | nil => simp [insertKey, lookupKey]
  | cons e rest ih =>
    obtain ⟨k, o₀⟩ := e
    by_cases h : k = key
    · simp [insertKey, lookupKey, h]
    · simp [insertKey, lookupKey, h, ih]

theorem lookupKey_insertKey_of_ne (objs : List (String × S3Object)) (key k : String)
    (o : S3Object) (hne : k ≠ key) :
    lookupKey (insertKey objs key o) k = lookupKey objs k := by
  induction objs with
  | nil => simp [insertKey, lookupKey, Ne.symm hne]
  | cons e rest ih =>
    obtain ⟨k₀, o₀⟩ := e
    by_cases h : k₀ = key
    · subst h
      simp [insertKey, lookupKey, Ne.symm hne]
    · by_cases h₂ : k₀ = k
      · simp [insertKey, lookupKey, h, h₂, hne]
      · simp [insertKey, lookupKey, h, h₂, ih]

theorem lookupKey_removeKey_of_ne (objs : List (String × S3Object)) (key k : String)
    (hne : k ≠ key) : lookupKey (removeKey objs key) k = lookupKey objs k := by
  induction objs with
  | nil => simp [removeKey, lookupKey]
  | cons e rest ih =>
    obtain ⟨k₀, o₀⟩ := e
    by_cases h : k₀ = key
    · subst h
      simp [removeKey, lookupKey, Ne.symm hne] at ih ⊢
      exact ih
    · by_cases h₂ : k₀ = k
      · simp [removeKey, lookupKey, h, h₂, hne]
      · simp [removeKey, lookupKey, h, h₂] at ih ⊢
        exact ih

theorem strStartsWith_iff (s p : String) : strStartsWith s p = true ↔ p.data <+: s.data :=
  List.isPrefixOf_iff_prefix

theorem cutPre_of_startsWith (s p : String) (h : strStartsWith s p = true) :
    p ++ cutPre s p = s := by
  obtain ⟨t, ht⟩ := (strStartsWith_iff s p).1 h
  have hc : cutPre s p = ⟨t⟩ := by
    unfold cutPre
    rw [if_pos h]
    have : s.data.drop p.data.length = t := by
      rw [← ht]
      exact List.drop_left p.data t
    rw [this]
  rw [hc]
  apply String.ext
  show p.data ++ t = s.data
  exact ht

theorem strAppend_assoc (a b c : String) : a ++ b ++ c = a ++ (b ++ c) := by
  apply String.ext
  show (a.data ++ b.data) ++ c.data = a.data ++ (b.data ++ c.data)
  simp

theorem strAppend_left_cancel (s x y : String) (h : s ++ x = s ++ y) : x = y := by
  have hd : s.data ++ x.data = s.data ++ y.data := congrArg String.data h
  exact String.ext (List.append_cancel_left hd)

theorem not_mem_of_contains_eq_false (l : List Char) (a : Char)
    (h : l.contains a = false) : a ∉ l := by
  intro hm
  have hc : l.contains a = true := by simpa using hm
  rw [hc] at h
  cases h

theorem isFileNameValid_isSupported (f : String) (h : isFileNameValid f = true) :
    isSupportedFileType f = true := by
  simp [isFileNameValid, Bool.and_eq_true, Bool.or_eq_true] at h
  simp [isSupportedFileType, Bool.or_eq_true]
  rcases h.1.2 with h₂ | h₂
  · exact Or.inl h₂.1
  · exact Or.inr h₂.1

theorem isFileNameValid_no_slash (f : String) (h : isFileNameValid f = true) :
    f.data.contains '/' = false := by
  simp [isFileNameValid, Bool.and_eq_true] at h
  simpa using h.2

theorem no_slash_not_substring (uid f : String) (h : f.data.contains '/' = false) :
    ¬ ((uid ++ "/").data <:+: f.data) := by
  intro hinf
  have hm : '/' ∈ (uid ++ "/").data := by
    show '/' ∈ uid.data ++ "/".data
    exact List.mem_append_right _ (by simp [String.data])
  exact not_mem_of_contains_eq_false f.data '/' h (hinf.subset hm)

/-! ### Claim theorems -/

/-- C2: a Write (`saveFileContent`) with `overwrite = false` issues a put
carrying the store-side "no existing entity tag" precondition
(`IfNoneMatch` set, recorded in the trace); it fails with
`ErrAlreadyExists` exactly when an object already exists at the computed
key (store untouched) and otherwise creates the object; with
`overwrite = true` the put is unconditional and replaces any prior
content at the key; and a successful Write of either kind returns the
entity tag the store assigned to the newly stored content. -/
theorem saveFileContent_conditional_put (st : S3State) (bucket pre fn content : String) :
    (((lookupKey st.objects (pre ++ fn)).isSome = true →
        saveFileContent st bucket pre fn content false false =
          (.error .ErrAlreadyExists, st,
           [StoreOp.putOp (pre ++ fn) (contentTypeFor fn) content true])) ∧
      (lookupKey st.objects (pre ++ fn) = none →
        saveFileContent st bucket pre fn content false false =
          (.ok ⟨etagFor st.counter⟩,
           ⟨insertKey st.objects (pre ++ fn) ⟨content, etagFor st.counter, st.counter⟩,
            st.counter + 1⟩,
           [StoreOp.putOp (pre ++ fn) (contentTypeFor fn) content true]))) ∧
    (saveFileContent st bucket pre fn content true false =
       (.ok ⟨etagFor st.counter⟩,
        ⟨insertKey st.objects (pre ++ fn) ⟨content, etagFor st.counter, st.counter⟩,
         st.counter + 1⟩,
        [StoreOp.putOp (pre ++ fn) (contentTypeFor fn) content false])) ∧
    lookupKey (insertKey st.objects (pre ++ fn) ⟨content, etagFor st.counter, st.counter⟩)
        (pre ++ fn) = some ⟨content, etagFor st.counter, st.counter⟩ := by
  refine ⟨⟨?_, ?_⟩, ?_, ?_⟩
  · intro h
    simp [saveFileContent, s3PutObject, h]
  · intro h
    simp [saveFileContent, s3PutObject, h]
  · simp [saveFileContent, s3PutObject]
  · exact lookupKey_insertKey_self st.objects (pre ++ fn) ⟨content, etagFor st.counter, st.counter⟩

/-- C2 witness: a create-only Write into an empty store succeeds and
returns the store-assigned entity tag. -/
theorem saveFileContent_conditional_put_witness :
    saveFileContent ⟨[], 0⟩ "b" "u/" "a.txt" "hi" false false =
      (.ok ⟨etagFor 0⟩, ⟨[("u/a.txt", ⟨"hi", etagFor 0, 0⟩)], 1⟩,
       [StoreOp.putOp "u/a.txt" "text/plain" "hi" true]) := by
  have h := (saveFileContent_conditional_put ⟨[], 0⟩ "b" "u/" "a.txt" "hi").1.2 rfl
  exact h.trans (by rfl)

/-- C6: for a Read (`getFileContent`): a missing object yields
`ErrNotFound`; a non-empty caller fingerprint equal to the stored one
yields `ErrNotModified`; and an empty caller fingerprint sends no
conditional header (the get carries `none`) and always returns an
existing object's full content and current fingerprint. -/
theorem getFileContent_conditional_read (st : S3State) (bucket pre fn etag : String) :
    (lookupKey st.objects (pre ++ fn) = none →
       getFileContent st bucket pre fn etag false =
         (.error .ErrNotFound,
          [StoreOp.getOp (pre ++ fn) (if etag = "" then none else some etag)])) ∧
    (∀ o, lookupKey st.objects (pre ++ fn) = some o →
       (etag ≠ "" → etag = o.etag →
          getFileContent st bucket pre fn etag false =
            (.error .ErrNotModified, [StoreOp.getOp (pre ++ fn) (some etag)])) ∧
       getFileContent st bucket pre fn "" false =
         (.ok ⟨o.content, o.etag⟩, [StoreOp.getOp (pre ++ fn) none])) := by
  refine ⟨?_, ?_⟩
  · intro h
    by_cases he : etag = ""
    · simp [getFileContent, s3GetObject, h, he]
    · simp [getFileContent, s3GetObject, h, he]
  · intro o h
    refine ⟨?_, ?_⟩
    · intro hne heq
      simp [getFileContent, s3GetObject, h, if_neg hne, if_pos heq]
    · simp [getFileContent, s3GetObject, h]

/-- C6 witness: reading with the current fingerprint yields
`ErrNotModified`; reading with the empty fingerprint returns the
content. -/
theorem getFileContent_conditional_read_witness :
    getFileContent ⟨[("u/a.txt", ⟨"x", "t", 0⟩)], 1⟩ "b" "u/" "a.txt" "t" false =
      (.error .ErrNotModified, [StoreOp.getOp "u/a.txt" (some "t")]) ∧
    getFileContent ⟨[("u/a.txt", ⟨"x", "t", 0⟩)], 1⟩ "b" "u/" "a.txt" "" false =
      (.ok ⟨"x", "t"⟩, [StoreOp.getOp "u/a.txt" none]) := by
  have h := (getFileContent_conditional_read ⟨[("u/a.txt", ⟨"x", "t", 0⟩)], 1⟩
    "b" "u/" "a.txt" "t").2 ⟨"x", "t", 0⟩ rfl
  exact ⟨(h.1 (by decide) rfl).trans (by rfl), h.2.trans (by rfl)⟩

/-- C9: a Delete (`deleteFile`) of a missing key returns success — under
either store behavior for a missing key (silent success or a reported
`NoSuchKey`, which the adapter swallows); deleting an existing key
returns success and removes it; any other store failure maps to
`ErrServiceUnavailable`.  By contrast (Delete alone treats absence as
the success state), a Read of a missing key fails with `ErrNotFound`
and a Rename whose source name is missing fails with `ErrNotFound`. -/
theorem deleteFile_idempotent (st : S3State) (bucket pre fn : String) :
    (∀ mr : Bool, lookupKey st.objects (pre ++ fn) = none →
        (deleteFile st bucket pre fn mr false).1 = .ok ()) ∧
    (∀ mr : Bool, (lookupKey st.objects (pre ++ fn)).isSome = true →
        deleteFile st bucket pre fn mr false =
          (.ok (), ⟨removeKey st.objects (pre ++ fn), st.counter⟩,
           [StoreOp.deleteOp (pre ++ fn)])) ∧
    (∀ mr : Bool, (deleteFile st bucket pre fn mr true).1 = .error .ErrServiceUnavailable) ∧
    (lookupKey st.objects (pre ++ fn) = none →
        (getFileContent st bucket pre fn "" false).1 = .error .ErrNotFound) ∧
    (∀ tgt, lookupKey st.objects (pre ++ tgt) = none →
        lookupKey st.objects (renameCopySourceKey pre fn) = none →
        renameCopySourceKey pre fn ≠ pre ++ tgt →
        (renameFile st bucket pre fn tgt false false false).1 = .error .ErrNotFound) := by
  refine ⟨?_, ?_, ?_, ?_, ?_⟩
  · intro mr h
    cases mr <;> simp [deleteFile, s3DeleteObject, h]
  · intro mr h
    obtain ⟨o, ho⟩ := Option.isSome_iff_exists.1 h
    cases mr <;> simp [deleteFile, s3DeleteObject, ho]
  · intro mr
    simp [deleteFile, s3DeleteObject]
  · intro h
    simp [getFileContent, s3GetObject, h]
  · intro tgt h₁ h₂ hne
    have hst : lookupKey
        (insertKey st.objects (pre ++ tgt) ⟨"", etagFor st.counter, st.counter⟩)
        (renameCopySourceKey pre fn) = none := by
      rw [lookupKey_insertKey_of_ne _ _ _ _ hne]
      exact h₂
    simp [renameFile, saveFileContent, s3PutObject, s3CopyObject, h₁, hst]

/-- C9 witness: deleting a missing key succeeds under both store
behaviors, while reading the same missing key yields `ErrNotFound`. -/
theorem deleteFile_idempotent_witness :
    (deleteFile ⟨[], 0⟩ "b" "u/" "a.txt" true false).1 = .ok () ∧
    (deleteFile ⟨[], 0⟩ "b" "u/" "a.txt" false false).1 = .ok () ∧
    (getFileContent ⟨[], 0⟩ "b" "u/" "a.txt" "" false).1 = .error .ErrNotFound := by
  have h := deleteFile_idempotent ⟨[], 0⟩ "b" "u/" "a.txt"
  exact ⟨h.1 true rfl, h.1 false rfl, h.2.2.2.1 rfl⟩

/-- C10: inside `renameFile` the copy step's source name is
`bucket ++ "/" ++ pre ++ queryEscape fileName` while the delete step's
key is `pre ++ fileName` with no escaping; whenever query-escaping
leaves the title unchanged the two computations name the same object,
but for the valid titles `"a b.txt"` (a space) and `"a+b.txt"` (a plus)
the name the content is copied from differs from the key that is
deleted. -/
theorem rename_copy_source_vs_delete_key :
    (∀ bucket pre t, queryEscape t = t →
        renameCopySource bucket pre t = bucket ++ "/" ++ renameDeleteKey pre t) ∧
    (∀ pre t, queryEscape t = t → renameCopySourceKey pre t = renameDeleteKey pre t) ∧
    isFileNameValid "a b.txt" = true ∧
    (∀ pre, renameCopySourceKey pre "a b.txt" ≠ renameDeleteKey pre "a b.txt") ∧
    isFileNameValid "a+b.txt" = true ∧
    (∀ pre, renameCopySourceKey pre "a+b.txt" ≠ renameDeleteKey pre "a+b.txt") := by
  refine ⟨?_, ?_, by decide, ?_, by decide, ?_⟩
  · intro bucket pre t h
    simp [renameCopySource, renameDeleteKey, h, strAppend_assoc]
  · intro pre t h
    simp [renameCopySourceKey, renameDeleteKey, h]
  · intro pre h
    have h₂ : queryEscape "a b.txt" = "a b.txt" :=
      strAppend_left_cancel pre (queryEscape "a b.txt") "a b.txt" h
    exact absurd h₂ (by decide)
  · intro pre h
    have h₂ : queryEscape "a+b.txt" = "a+b.txt" :=
      strAppend_left_cancel pre (queryEscape "a+b.txt") "a+b.txt" h
    exact absurd h₂ (by decide)

/-- C10 witness: for the escape-invariant title `"a-b.txt"` the copy
source and the delete key agree. -/
theorem rename_copy_source_vs_delete_key_witness :
    renameCopySource "b" "u/" "a-b.txt" = "b" ++ "/" ++ renameDeleteKey "u/" "a-b.txt" :=
  rename_copy_source_vs_delete_key.1 "b" "u/" "a-b.txt" (by decide)

/-- C1: a fully successful Rename executes exactly three store steps in
order — the create-only empty put at the target key, the copy from the
computed source name onto the target key, and the delete of the source
key — and returns the entity tag produced by the copy step (that of the
object now stored at the target), which is distinct from the
reservation step's tag; no other store call is made. -/
theorem renameFile_success_protocol (st : S3State) (bucket pre src tgt : String)
    (o : S3Object)
    (hTgt : lookupKey st.objects (pre ++ tgt) = none)
    (hSrc : lookupKey st.objects (renameCopySourceKey pre src) = some o) :
    renameFile st bucket pre src tgt false false false =
      (.ok ⟨etagFor (st.counter + 1)⟩,
       ⟨removeKey
          (insertKey
            (insertKey st.objects (pre ++ tgt) ⟨"", etagFor st.counter, st.counter⟩)
            (pre ++ tgt) ⟨o.content, etagFor (st.counter + 1), st.counter + 1⟩)
          (renameDeleteKey pre src),
        st.counter + 1 + 1⟩,
       [StoreOp.putOp (pre ++ tgt) (contentTypeFor tgt) "" true,
        StoreOp.copyOp (renameCopySource bucket pre src) (pre ++ tgt),
        StoreOp.deleteOp (renameDeleteKey pre src)]) ∧
    etagFor (st.counter + 1) ≠ etagFor st.counter ∧
    (renameDeleteKey pre src ≠ pre ++ tgt →
      lookupKey
        (removeKey
          (insertKey
            (insertKey st.objects (pre ++ tgt) ⟨"", etagFor st.counter, st.counter⟩)
            (pre ++ tgt) ⟨o.content, etagFor (st.counter + 1), st.counter + 1⟩)
          (renameDeleteKey pre src))
        (pre ++ tgt) = some ⟨o.content, etagFor (st.counter + 1), st.counter + 1⟩) := by
  have hne : renameCopySourceKey pre src ≠ pre ++ tgt := by
    intro h
    rw [h, hTgt] at hSrc
    cases hSrc
  have hst : lookupKey
      (insertKey st.objects (pre ++ tgt) ⟨"", etagFor st.counter, st.counter⟩)
      (renameCopySourceKey pre src) = some o := by
    rw [lookupKey_insertKey_of_ne _ _ _ _ hne]
    exact hSrc
  refine ⟨?_, etagFor_succ_ne st.counter, ?_⟩
  · simp [renameFile, saveFileContent, s3PutObject, s3CopyObject, s3DeleteObject, hTgt, hst]
  · intro hd
    rw [lookupKey_removeKey_of_ne _ _ _ (Ne.symm hd)]
    exact lookupKey_insertKey_self _ _ _

/-- C1 witness: renaming `a.txt` to `b.txt` over a store holding only
`u/a.txt` succeeds and returns the copy step's entity tag. -/
theorem renameFile_success_protocol_witness :
    (renameFile ⟨[("u/a.txt", ⟨"x", "t", 0⟩)], 1⟩ "b" "u/" "a.txt" "b.txt"
        false false false).1 = .ok ⟨etagFor 2⟩ := by
  have h := renameFile_success_protocol ⟨[("u/a.txt", ⟨"x", "t", 0⟩)], 1⟩
    "b" "u/" "a.txt" "b.txt" ⟨"x", "t", 0⟩ (by decide) (by decide)
  rw [h.1]

/-- C3: when Rename's target-reservation step fails — with
`ErrAlreadyExists` because the target key is occupied, or with
`ErrServiceUnavailable` on any other failure of the put — Rename
returns that step's error with the store unchanged and the trace
showing no copy and no delete attempt, whatever faults the later steps
would have had. -/
theorem renameFile_reservation_failure (st : S3State) (bucket pre src tgt : String) :
    (∀ fc fd : Bool, (lookupKey st.objects (pre ++ tgt)).isSome = true →
        renameFile st bucket pre src tgt false fc fd =
          (.error .ErrAlreadyExists, st,
           [StoreOp.putOp (pre ++ tgt) (contentTypeFor tgt) "" true])) ∧
    (∀ fc fd : Bool, renameFile st bucket pre src tgt true fc fd =
        (.error .ErrServiceUnavailable, st,
         [StoreOp.putOp (pre ++ tgt) (contentTypeFor tgt) "" true])) := by
  refine ⟨?_, ?_⟩
  · intro fc fd h
    simp [renameFile, saveFileContent, s3PutObject, h]
  · intro fc fd
    simp [renameFile, saveFileContent, s3PutObject]

/-- C3 witness: renaming onto an occupied target fails with
`ErrAlreadyExists` and an untouched store. -/
theorem renameFile_reservation_failure_witness :
    renameFile ⟨[("u/b.txt", ⟨"y", "s", 0⟩)], 1⟩ "b" "u/" "a.txt" "b.txt"
        false false false =
      (.error .ErrAlreadyExists, ⟨[("u/b.txt", ⟨"y", "s", 0⟩)], 1⟩,
       [StoreOp.putOp "u/b.txt" "text/plain" "" true]) := by
  have h := (renameFile_reservation_failure ⟨[("u/b.txt", ⟨"y", "s", 0⟩)], 1⟩
    "b" "u/" "a.txt" "b.txt").1 false false (by decide)
  exact h.trans (by rfl)

/-- C4: when Rename's copy step fails because no object exists at the
copy-source name, Rename returns `ErrNotFound`, leaves the reservation's
empty object at the target key (no rollback), touches no other key (in
particular the source key is not deleted), and never attempts the
delete step, whatever fault that step would have had. -/
theorem renameFile_copy_notfound (st : S3State) (bucket pre src tgt : String) (fd : Bool)
    (hTgt : lookupKey st.objects (pre ++ tgt) = none)
    (hSrc : lookupKey st.objects (renameCopySourceKey pre src) = none)
    (hne : renameCopySourceKey pre src ≠ pre ++ tgt) :
    renameFile st bucket pre src tgt false false fd =
      (.error .ErrNotFound,
       ⟨insertKey st.objects (pre ++ tgt) ⟨"", etagFor st.counter, st.counter⟩,
        st.counter + 1⟩,
       [StoreOp.putOp (pre ++ tgt) (contentTypeFor tgt) "" true,
        StoreOp.copyOp (renameCopySource bucket pre src) (pre ++ tgt)]) ∧
    lookupKey (insertKey st.objects (pre ++ tgt) ⟨"", etagFor st.counter, st.counter⟩)
        (pre ++ tgt) = some ⟨"", etagFor st.counter, st.counter⟩ ∧
    (∀ k, k ≠ pre ++ tgt →
      lookupKey (insertKey st.objects (pre ++ tgt) ⟨"", etagFor st.counter, st.counter⟩) k
        = lookupKey st.objects k) := by
  have hst : lookupKey
      (insertKey st.objects (pre ++ tgt) ⟨"", etagFor st.counter, st.counter⟩)
      (renameCopySourceKey pre src) = none := by
    rw [lookupKey_insertKey_of_ne _ _ _ _ hne]
    exact hSrc
  refine ⟨?_, lookupKey_insertKey_self _ _ _, fun k hk => lookupKey_insertKey_of_ne _ _ _ _ hk⟩
  simp [renameFile, saveFileContent, s3PutObject, s3CopyObject, hTgt, hst]

/-- C4 witness: renaming a nonexistent source over an empty store fails
with `ErrNotFound` and leaves the reserved empty target behind. -/
theorem renameFile_copy_notfound_witness :
    (renameFile ⟨[], 0⟩ "b" "u/" "a.txt" "b.txt" false false false).1
      = .error .ErrNotFound := by
  have h := renameFile_copy_notfound ⟨[], 0⟩ "b" "u/" "a.txt" "b.txt" false
    (by decide) (by decide) (by decide)
  rw [h.1]

/-- C5: when Rename's reservation and copy steps succeed but the delete
of the source fails, Rename returns `ErrServiceUnavailable` and no
fingerprint, the target key holds the copied content, and every other
key — in particular the source — is exactly as before; the trace shows
each of the three steps attempted exactly once, with no retry. -/
theorem renameFile_delete_failure (st : S3State) (bucket pre src tgt : String)
    (o : S3Object)
    (hTgt : lookupKey st.objects (pre ++ tgt) = none)
    (hSrc : lookupKey st.objects (renameCopySourceKey pre src) = some o) :
    renameFile st bucket pre src tgt false false true =
      (.error .ErrServiceUnavailable,
       ⟨insertKey
          (insertKey st.objects (pre ++ tgt) ⟨"", etagFor st.counter, st.counter⟩)
          (pre ++ tgt) ⟨o.content, etagFor (st.counter + 1), st.counter + 1⟩,
        st.counter + 1 + 1⟩,
       [StoreOp.putOp (pre ++ tgt) (contentTypeFor tgt) "" true,
        StoreOp.copyOp (renameCopySource bucket pre src) (pre ++ tgt),
        StoreOp.deleteOp (renameDeleteKey pre src)]) ∧
    lookupKey
        (insertKey
          (insertKey st.objects (pre ++ tgt) ⟨"", etagFor st.counter, st.counter⟩)
          (pre ++ tgt) ⟨o.content, etagFor (st.counter + 1), st.counter + 1⟩)
        (pre ++ tgt) = some ⟨o.content, etagFor (st.counter + 1), st.counter + 1⟩ ∧
    (∀ k, k ≠ pre ++ tgt →
      lookupKey
        (insertKey
          (insertKey st.objects (pre ++ tgt) ⟨"", etagFor st.counter, st.counter⟩)
          (pre ++ tgt) ⟨o.content, etagFor (st.counter + 1), st.counter + 1⟩) k
        = lookupKey st.objects k) := by
  have hne : renameCopySourceKey pre src ≠ pre ++ tgt := by
    intro h
    rw [h, hTgt] at hSrc
    cases hSrc
  have hst : lookupKey
      (insertKey st.objects (pre ++ tgt) ⟨"", etagFor st.counter, st.counter⟩)
      (renameCopySourceKey pre src) = some o := by
    rw [lookupKey_insertKey_of_ne _ _ _ _ hne]
    exact hSrc
  refine ⟨?_, lookupKey_insertKey_self _ _ _, fun k hk => ?_⟩
  · simp [renameFile, saveFileContent, s3PutObject, s3CopyObject, s3DeleteObject, hTgt, hst]
  · rw [lookupKey_insertKey_of_ne _ _ _ _ hk, lookupKey_insertKey_of_ne _ _ _ _ hk]

/-- C5 witness: with the delete step failing, renaming `a.txt` to
`b.txt` yields `ErrServiceUnavailable` while both keys remain stored. -/
theorem renameFile_delete_failure_witness :
    (renameFile ⟨[("u/a.txt", ⟨"x", "t", 0⟩)], 1⟩ "b" "u/" "a.txt" "b.txt"
        false false true).1 = .error .ErrServiceUnavailable := by
  have h := renameFile_delete_failure ⟨[("u/a.txt", ⟨"x", "t", 0⟩)], 1⟩
    "b" "u/" "a.txt" "b.txt" ⟨"x", "t", 0⟩ (by decide) (by decide)
  rw [h.1]

/-- C7: every record of the listing surface (`listFiles` followed by
`handleGetFiles`' packing filter) has a title ending in a recognized
suffix, a title that is exactly some store key with the namespace
prefix stripped (so the key is the prefix followed by the title), and a
title containing neither a path separator nor the namespace prefix
`userId ++ "/"`. -/
theorem listing_filter_closure (st : S3State) (bucket userId : String)
    (pageSize : Nat) (tok : String) (r : ListFilesResult)
    (h : (listFiles st bucket (userId ++ "/") pageSize tok false).1 = .ok r) :
    ∀ f ∈ (packGetFilesResult r).Files,
      isSupportedFileType f.FileName = true ∧
      f.FileName.data.contains '/' = false ∧
      ¬ ((userId ++ "/").data <:+: f.FileName.data) ∧
      ∃ e ∈ st.objects, strStartsWith e.1 (userId ++ "/") = true ∧
        f.FileName = cutPre e.1 (userId ++ "/") ∧
        e.1 = (userId ++ "/") ++ f.FileName := by
  intro f hf
  simp only [packGetFilesResult, List.mem_map, List.mem_filter] at hf
  obtain ⟨a, ⟨haR, hav⟩, hfa⟩ := hf
  have hfn : f.FileName = a.FileName := by rw [← hfa]
  have hr : ∃ l : List (String × S3Object),
      (∀ e ∈ l, e ∈ st.objects ∧ strStartsWith e.1 (userId ++ "/") = true) ∧
      r.Files = (l.filter (fun e => isSupportedFileType e.1)).map
        (fun e => ⟨cutPre e.1 (userId ++ "/"), e.2.lastModified, e.2.etag⟩) := by
    by_cases ht : tok = ""
    · refine ⟨(s3MatchingObjects st (userId ++ "/")).take pageSize, fun e he => ?_, ?_⟩
      · have hm : e ∈ s3MatchingObjects st (userId ++ "/") := List.take_subset _ _ he
        have := List.mem_filter.1 hm
        exact ⟨this.1, this.2⟩
      · simp [listFiles, s3ListObjectsV2, ht] at h
        rw [← h]
    · cases hp : tok.toNat? with
      | none =>
        exfalso
        simp [listFiles, s3ListObjectsV2, ht, hp] at h
      | some start =>
        refine ⟨((s3MatchingObjects st (userId ++ "/")).drop start).take pageSize,
          fun e he => ?_, ?_⟩
        · have hm : e ∈ s3MatchingObjects st (userId ++ "/") :=
            List.drop_subset _ _ (List.take_subset _ _ he)
          have := List.mem_filter.1 hm
          exact ⟨this.1, this.2⟩
        · simp [listFiles, s3ListObjectsV2, ht, hp] at h
          rw [← h]
  obtain ⟨l, hl, hFiles⟩ := hr
  rw [hFiles] at haR
  simp only [List.mem_map, List.mem_filter] at haR
  obtain ⟨e, ⟨heL, heSupp⟩, hea⟩ := haR
  obtain ⟨heSt, hePre⟩ := hl e heL
  have han : a.FileName = cutPre e.1 (userId ++ "/") := by rw [← hea]
  have hslash : f.FileName.data.contains '/' = false := by
    rw [hfn]
    exact isFileNameValid_no_slash _ hav
  refine ⟨?_, hslash, no_slash_not_substring userId f.FileName hslash, e, heSt, hePre, ?_, ?_⟩
  · rw [hfn]
    exact isFileNameValid_isSupported _ hav
  · rw [hfn, han]
  · rw [hfn, han]
    exact (cutPre_of_startsWith e.1 (userId ++ "/") hePre).symm

/-- C7 witness: a store holding `u1/a.txt` lists the single record
`a.txt`, which satisfies all closure properties. -/
theorem listing_filter_closure_witness :
    isSupportedFileType "a.txt" = true ∧
    ("a.txt" : String).data.contains '/' = false ∧
    ¬ (("u1" ++ "/").data <:+: ("a.txt" : String).data) ∧
    ∃ e ∈ [("u1/a.txt", (⟨"x", "t", 0⟩ : S3Object))],
      strStartsWith e.1 ("u1" ++ "/") = true ∧
      ("a.txt" : String) = cutPre e.1 ("u1" ++ "/") ∧
      e.1 = ("u1" ++ "/") ++ "a.txt" := by
  have h := listing_filter_closure ⟨[("u1/a.txt", ⟨"x", "t", 0⟩)], 0⟩ "b" "u1" 10 ""
    ⟨[⟨"a.txt", 0, "t"⟩], false, ""⟩ (by rfl) ⟨"a.txt", 0, "t"⟩ (by decide)
  exact h

/-- C8: a List call performs exactly one store fetch bounded by
`pageSize` raw entries; the suffix filter is applied after fetching, so
the record count is at most the raw page size while `HasMore` is the
store's truncation flag computed on the raw listing; and a page whose
raw entries are all unsupported yields zero records with
`HasMore = true` (no backfilling is attempted). -/
theorem listFiles_pagination (st : S3State) (bucket pre : String)
    (pageSize start : Nat) (tok : String)
    (htok : (if tok = "" then some 0 else tok.toNat?) = some start) :
    listFiles st bucket pre pageSize tok false =
      (.ok ⟨((((s3MatchingObjects st pre).drop start).take pageSize).filter
               (fun e => isSupportedFileType e.1)).map
              (fun e => ⟨cutPre e.1 pre, e.2.lastModified, e.2.etag⟩),
            decide (pageSize < ((s3MatchingObjects st pre).drop start).length),
            if pageSize < ((s3MatchingObjects st pre).drop start).length then
              toString (start + pageSize)
            else ""⟩,
       [StoreOp.listOp pre pageSize (if tok = "" then none else some tok)]) ∧
    (((((s3MatchingObjects st pre).drop start).take pageSize).filter
        (fun e => isSupportedFileType e.1)).map
        (fun e => (⟨cutPre e.1 pre, e.2.lastModified, e.2.etag⟩ : FileData))).length
      ≤ pageSize ∧
    listFiles ⟨[("u/a.doc", ⟨"", "e", 0⟩), ("u/b.doc", ⟨"", "e", 0⟩)], 0⟩
        "b" "u/" 1 "" false =
      (.ok ⟨[], true, "1"⟩, [StoreOp.listOp "u/" 1 none]) := by
  refine ⟨?_, ?_, by rfl⟩
  · by_cases ht : tok = ""
    · rw [ht] at htok ⊢
      have h0 : start = 0 := by
        have := htok
        simp at this
        exact this.symm
      subst h0
      simp [listFiles, s3ListObjectsV2]
      split <;> rfl
    · have hp : tok.toNat? = some start := by
        rw [if_neg ht] at htok
        exact htok
      simp [listFiles, s3ListObjectsV2, ht, hp]
      split <;> rfl
  · rw [List.length_map]
    exact le_trans (List.length_filter_le _ _) (List.length_take_le _ _)

/-- C8 witness: a raw page of one unsupported entry over a two-entry
namespace yields zero records with `HasMore = true`. -/
theorem listFiles_pagination_witness :
    listFiles ⟨[("u/a.doc", ⟨"", "e", 0⟩), ("u/b.doc", ⟨"", "e", 0⟩)], 0⟩
        "b" "u/" 1 "" false =
      (.ok ⟨[], true, "1"⟩, [StoreOp.listOp "u/" 1 none]) := by
  have h := listFiles_pagination ⟨[("u/a.doc", ⟨"", "e", 0⟩), ("u/b.doc", ⟨"", "e", 0⟩)], 0⟩
    "b" "u/" 1 0 "" (by rfl)
  exact h.2.2

end NotedOk
